import Mathlib

/-!
Shallow embedding of the elevation-mapping core (`ElevationMap.cpp` and
`ElevationMappingHelpers.hpp`) and verification of its specification.

Modelling conventions:
- Machine `double`/`float` values are modelled as rationals (`ℚ`); the
  special value `+infinity` produced by the variance clamp is modelled with
  `WithTop ℚ` (`⊤` = `+infinity`) on the map layers where it can occur.
- An invalid cell (the not-a-number "hole" sentinel of the grid library) is
  modelled as `none` of an `Option` type.
- The grid collaborator (`grid_map_lib`: world-to-index mapping, submap
  computation, iteration) and the Gaussian `erfc`-based weight computation
  are external to the verified core; where a loop consumes their output the
  embedding takes that output as an explicit argument (the list of gathered
  candidate neighbors with their weights).
-/

namespace ElevationMapping

/-- Configuration parameters of `ElevationMap` (members set in the
constructor / read from parameters): the variance bounds for the clamp, the
Mahalanobis threshold, the multi-height noise increment and the horizontal
variance bounds. -/
structure Params where
  minVariance : ℚ
  maxVariance : ℚ
  minHorizontalVariance : ℚ
  maxHorizontalVariance : ℚ
  mahalanobisDistanceThreshold : ℚ
  multiHeightNoise : ℚ
deriving DecidableEq

/-! ## Variance clamp (`ElevationMappingHelpers.hpp`, lines 21-24)

`x < minVariance_ ? minVariance_ : (x > maxVariance_ ? infinity : x)`. -/

/-- Embeds `VarianceClampOperator::operator()`: values below the minimum are
raised to the minimum, values above the maximum are sent to `+infinity`
(`⊤`), everything else passes through. -/
def varianceClampOperator (minV maxV : ℚ) (x : WithTop ℚ) : WithTop ℚ :=
  if x < (minV : WithTop ℚ) then (minV : WithTop ℚ)
  else if (maxV : WithTop ℚ) < x then ⊤
  else x

/-! ## Point integrator (`ElevationMap::add`, lines 65-117)

The per-point update of one raw-map cell. Mapping the point position to a
cell index (line 73) is done by the external grid collaborator; the
embedding describes the update of the targeted cell. -/

/-- One raw-map cell as seen by the point integrator: the five layers at one
index. `elevation = none` models the not-a-number hole sentinel, i.e. an
invalid cell (`rawMap_.isValid(index)` false, line 82). The integrator
claims are about cells with finite variance; the clamp divergence marker
`⊤` lives on the matrix-level layers below. -/
structure Cell where
  elevation : Option ℚ
  variance : ℚ
  hvx : ℚ
  hvy : ℚ
  color : ℚ
deriving DecidableEq

/-- Embeds the branch condition of line 93-95,
`sqrt(pow(point.z - elevation, 2) / variance) < mahalanobisDistanceThreshold_`,
without the square root: for `variance > 0` the condition is equivalent to
`0 < threshold ∧ (z - e)^2 < threshold^2 * variance` (the square root of a
nonnegative number is below `t` iff `t` is positive and the number is below
`t^2`); the equivalence is proved in `mahalanobisBelow_iff`. -/
def mahalanobisBelow (t z e v : ℚ) : Prop :=
  0 < t ∧ (z - e) ^ 2 < t ^ 2 * v

instance (t z e v : ℚ) : Decidable (mahalanobisBelow t z e v) := by
  unfold mahalanobisBelow; infer_instance

/-- Embeds the body of the point loop of `ElevationMap::add`
(lines 82-111) acting on the targeted cell: initialization of an invalid
cell, inverse-variance fusion below the Mahalanobis threshold, and the
outlier branch (noise inflation plus horizontal-variance reset) otherwise.
Arguments: `z` the point height, `pv` the supplied point variance, `pcol`
the point color. -/
def addPoint (p : Params) (z pv pcol : ℚ) (c : Cell) : Cell :=
  match c.elevation with
  | none =>
    -- lines 82-91: no prior information, use the measurement
    { elevation := some z
      variance := pv
      hvx := p.minHorizontalVariance
      hvy := p.minHorizontalVariance
      color := pcol }
  | some e =>
    if mahalanobisBelow p.mahalanobisDistanceThreshold z e c.variance then
      -- lines 95-102: fuse measurement with elevation map data
      { c with
        elevation := some ((c.variance * z + pv * e) / (c.variance + pv))
        variance := (pv * c.variance) / (pv + c.variance)
        color := pcol }
    else
      -- lines 105-111: inflate variance, reset horizontal variances
      { c with
        variance := c.variance + p.multiHeightNoise
        hvx := p.minHorizontalVariance
        hvy := p.minHorizontalVariance }

/-! ## Raw map matrices, `ElevationMap::clean` (lines 381-388) and
`ElevationMap::update` (lines 119-143) -/

/-- The raw grid map: one matrix per layer (row-major lists) plus the
attached timestamp and the buffer size that `rawMap_.getBufferSize()`
reports. Variance layers live in `WithTop ℚ` because the clamp marks
diverged cells with `+infinity`. -/
structure RawMap where
  size : ℕ × ℕ
  elevation : List (List (Option ℚ))
  variance : List (List (WithTop ℚ))
  hvx : List (List (WithTop ℚ))
  hvy : List (List (WithTop ℚ))
  color : List (List ℚ)
  timestamp : ℕ
deriving DecidableEq

/-- Dimensions (rows, cols) of a dense update matrix, as compared against
`rawMap_.getBufferSize()` on lines 126-130. -/
def matDims (m : List (List ℚ)) : ℕ × ℕ :=
  (m.length, (m.headD []).length)

/-- Elementwise sum of a variance layer and a finite update matrix
(`rawMap_.get(..) += update`, lines 136-138). -/
def addMat (a : List (List (WithTop ℚ))) (d : List (List ℚ)) :
    List (List (WithTop ℚ)) :=
  List.zipWith (fun (ra : List (WithTop ℚ)) (rd : List ℚ) =>
    List.zipWith (fun x y => x + (y : WithTop ℚ)) ra rd) a d

/-- Embeds `ElevationMap::clean` (lines 381-388): clamp the `variance` layer
with the variance bounds and the two horizontal variance layers with the
horizontal variance bounds; nothing else is touched. -/
def clean (p : Params) (m : RawMap) : RawMap :=
  { m with
    variance := m.variance.map (List.map (varianceClampOperator p.minVariance p.maxVariance))
    hvx := m.hvx.map (List.map (varianceClampOperator p.minHorizontalVariance p.maxHorizontalVariance))
    hvy := m.hvy.map (List.map (varianceClampOperator p.minHorizontalVariance p.maxHorizontalVariance)) }

/-- Embeds `ElevationMap::update` (lines 119-143): if any of the three
update matrices does not match the buffer size, report failure and leave the
map untouched (lines 126-134); otherwise add the deltas, run `clean`, set
the timestamp and report success (lines 136-142). -/
def update (p : Params) (m : RawMap)
    (varianceUpdate horizontalVarianceUpdateX horizontalVarianceUpdateY : List (List ℚ))
    (t : ℕ) : Bool × RawMap :=
  if matDims varianceUpdate = m.size ∧
     matDims horizontalVarianceUpdateX = m.size ∧
     matDims horizontalVarianceUpdateY = m.size then
    (true,
      { clean p
          { m with
            variance := addMat m.variance varianceUpdate
            hvx := addMat m.hvx horizontalVarianceUpdateX
            hvy := addMat m.hvy horizontalVarianceUpdateY } with
        timestamp := t })
  else
    (false, m)

/-! ## Fusion engine (`ElevationMap::fuse`, lines 174-294)

The submap selection around a cell (lines 208-218, delegated to
`grid_map_lib::getSubmapInformation`) and the Gaussian weight computation
(lines 238-251, based on `erfc`) are performed by external collaborators;
the embedding receives, per fused cell, the list of gathered candidate
neighbors: for each valid snapshot cell of the submap its weight
`probabilityX * probabilityY`, its elevation and its variance
(lines 229-253). -/

/-- One gathered candidate neighbor of a cell being fused: the Gaussian
footprint weight `w` (`weights[i]`), the raw elevation `e` (`means[i]`) and
the raw variance `v` (`variances[i]`) collected on lines 235-251. -/
structure Candidate where
  w : ℚ
  e : ℚ
  v : ℚ
deriving DecidableEq

/-- Sum of the candidate weights, `weights.sum()` (lines 268-269). -/
def weightsSum (cs : List Candidate) : ℚ :=
  (cs.map (fun c => c.w)).sum

/-- Embeds line 268: the fused mean
`(weights * means).sum() / weights.sum()`. -/
def fusedMean (cs : List Candidate) : ℚ :=
  (cs.map (fun c => c.w * c.e)).sum / weightsSum cs

/-- Embeds line 269 as written in the code: the fused variance
`(weights * (variances.square() + means.square())).sum() / weights.sum() - pow(mean, 2)`.
Note the `.square()` on `variances`: the code averages `v^2 + e^2`, not
`v + e^2`. -/
def fusedVariance (cs : List Candidate) : ℚ :=
  (cs.map (fun c => c.w * (c.v ^ 2 + c.e ^ 2))).sum / weightsSum cs
    - (fusedMean cs) ^ 2

/-- Modelled from the spec: the fused-variance formula as the specification
states it, the weighted second moment `Σ(w·(v + e²))/Σw − μ²` (spec 4.4.f),
written down only to be compared with `fusedVariance`, the formula the code
computes. -/
def fusedVarianceSpecFormula (cs : List Candidate) : ℚ :=
  (cs.map (fun c => c.w * (c.v + c.e ^ 2))).sum / weightsSum cs
    - (fusedMean cs) ^ 2

/-- One cell of the fused map: the `elevation`, `variance` and `color`
layers at one index. -/
structure FusedCell where
  elevation : ℚ
  variance : ℚ
  color : ℚ
deriving DecidableEq

/-- The fused grid map: row-major cells (`none` = invalid) plus the attached
timestamp. -/
structure FusedMap where
  cells : List (List (Option FusedCell))
  timestamp : ℕ
deriving DecidableEq

/-- One cell of the raw-map snapshot as the fusion loop reads it: `none`
models a hole (`rawMapCopy.isValid` false, line 203). -/
structure RawCell where
  elevation : ℚ
  variance : ℚ
  color : ℚ
deriving DecidableEq

/-- The value snapshot of the raw map taken on line 189 (`rawMapCopy`),
restricted to what the fusion loop reads directly from it; the horizontal
variances only feed the external submap and weight computations. -/
structure RawSnapshot where
  cells : List (List (Option RawCell))
  timestamp : ℕ
deriving DecidableEq

/-- Cell lookup in a row-major grid; out-of-range indices read as invalid. -/
def cellAt (m : List (List (Option α))) (idx : ℕ × ℕ) : Option α :=
  (m.getD idx.1 []).getD idx.2 none

/-- Cell write in a row-major grid (out-of-range writes are dropped, as an
out-of-range index never arises from the submap iterator). -/
def setCell (m : List (List (Option α))) (idx : ℕ × ℕ) (c : α) :
    List (List (Option α)) :=
  m.set idx.1 ((m.getD idx.1 []).set idx.2 (some c))

/-- Embeds `ElevationMap::resetFusedData` (lines 390-395):
`fusedMap_.clearAll()` invalidates every cell, then the fused timestamp is
set to `0`. -/
def resetFusedData (f : FusedMap) : FusedMap :=
  { cells := f.cells.map (fun row => row.map (fun _ => none))
    timestamp := 0 }

/-- The indices visited by the submap iterator of line 196 for a region
with the given top-left index and size, in row-major order. -/
def regionIndices (topLeft size : ℕ × ℕ) : List (ℕ × ℕ) :=
  (List.range size.1).flatMap (fun i =>
    (List.range size.2).map (fun j => (topLeft.1 + i, topLeft.2 + j)))

/-- Embeds the body of the area loop of `ElevationMap::fuse`
(lines 196-285) for one cell: skip cells already fused (line 201), skip
holes of the snapshot (lines 203-206), pass the raw cell through when no
candidate was gathered (lines 255-261), otherwise write the weighted mean
and the fused variance with the raw center color (lines 263-283). The
finiteness guard of line 271 discards the cell exactly when the weight sum
is zero, the one way the rational-arithmetic shadow of the computation can
correspond to a non-finite float mean or variance. `cands idx` is the
candidate list gathered for the cell at `idx` by lines 208-253. -/
def fuseCellStep (cands : ℕ × ℕ → List Candidate) (snap : RawSnapshot)
    (f : FusedMap) (idx : ℕ × ℕ) : FusedMap :=
  if (cellAt f.cells idx).isSome then f
  else
    match cellAt snap.cells idx with
    | none => f
    | some raw =>
      let cs := cands idx
      if cs.isEmpty then
        { f with cells := setCell f.cells idx ⟨raw.elevation, raw.variance, raw.color⟩ }
      else if weightsSum cs = 0 then f
      else
        { f with cells := setCell f.cells idx ⟨fusedMean cs, fusedVariance cs, raw.color⟩ }

/-- Embeds `ElevationMap::fuse` (lines 174-294). The emptiness guard of
line 179 is `size.any() == 0`: Eigen `Array2i::any()` is true when at least
one coefficient is nonzero, so the guard returns `false` exactly when both
components of `size` are zero. Otherwise: staleness reset when the fused
timestamp differs from the snapshot timestamp (line 193), the per-cell loop
over the requested region (lines 196-285), and finally the fused timestamp
is set to the snapshot timestamp (line 287) and the function returns
`true`. -/
def fuse (cands : ℕ × ℕ → List Candidate) (f : FusedMap) (snap : RawSnapshot)
    (topLeft size : ℕ × ℕ) : Bool × FusedMap :=
  if size.1 = 0 ∧ size.2 = 0 then (false, f)
  else
    let f1 := if f.timestamp ≠ snap.timestamp then resetFusedData f else f
    let f2 := (regionIndices topLeft size).foldl (fuseCellStep cands snap) f1
    (true, { f2 with timestamp := snap.timestamp })

/-! ## Supporting lemmas -/

/-- The sqrt-free branch condition `mahalanobisBelow` agrees with the
Mahalanobis test the code performs in real arithmetic: for a positive cell
variance, `sqrt((z - e)^2 / v) = |z - e| / sqrt v < t` holds iff
`0 < t ∧ (z - e)^2 < t^2 * v`. -/
theorem mahalanobisBelow_iff (t z e v : ℚ) (hv : 0 < v) :
    mahalanobisBelow t z e v ↔
      |(z : ℝ) - (e : ℝ)| / Real.sqrt (v : ℝ) < (t : ℝ) := by
  have hvR : (0 : ℝ) < (v : ℝ) := by exact_mod_cast hv
  have habs : |(z : ℝ) - (e : ℝ)| / Real.sqrt (v : ℝ)
      = Real.sqrt ((((z : ℝ) - (e : ℝ)) ^ 2) / (v : ℝ)) := by
    rw [Real.sqrt_div (by positivity) (v : ℝ), Real.sqrt_sq_eq_abs]
  rw [habs]
  constructor
  · rintro ⟨ht, hlt⟩
    have htR : (0 : ℝ) < (t : ℝ) := by exact_mod_cast ht
    rw [Real.sqrt_lt' htR, div_lt_iff₀ hvR]
    exact_mod_cast hlt
  · intro h
    have htR : (0 : ℝ) < (t : ℝ) := lt_of_le_of_lt (Real.sqrt_nonneg _) h
    rw [Real.sqrt_lt' htR, div_lt_iff₀ hvR] at h
    exact ⟨by exact_mod_cast htR, by exact_mod_cast h⟩

/-! ## Claim theorems -/

/-- Claim C6: the variance clamp is the pure elementwise transform sending a
value below the minimum to the minimum, a (not below-minimum) value above
the maximum to `+infinity` (not to the maximum), and any other value to
itself; `clean` applies it elementwise to the `variance` layer with the
variance bounds and to the two horizontal-variance layers with the
horizontal-variance bounds, touching nothing else. -/
theorem variance_clamp_spec (minV maxV : ℚ) (x : WithTop ℚ) (p : Params) (m : RawMap) :
    (x < (minV : WithTop ℚ) → varianceClampOperator minV maxV x = (minV : WithTop ℚ)) ∧
    (¬ x < (minV : WithTop ℚ) → (maxV : WithTop ℚ) < x →
      varianceClampOperator minV maxV x = ⊤) ∧
    (¬ x < (minV : WithTop ℚ) → ¬ (maxV : WithTop ℚ) < x →
      varianceClampOperator minV maxV x = x) ∧
    (clean p m).variance
      = m.variance.map (List.map (varianceClampOperator p.minVariance p.maxVariance)) ∧
    (clean p m).hvx
      = m.hvx.map (List.map (varianceClampOperator p.minHorizontalVariance p.maxHorizontalVariance)) ∧
    (clean p m).hvy
      = m.hvy.map (List.map (varianceClampOperator p.minHorizontalVariance p.maxHorizontalVariance)) ∧
    (clean p m).elevation = m.elevation ∧
    (clean p m).color = m.color ∧
    (clean p m).size = m.size ∧
    (clean p m).timestamp = m.timestamp := by
  refine ⟨?_, ?_, ?_, rfl, rfl, rfl, rfl, rfl, rfl, rfl⟩
  · intro h1
    simp [varianceClampOperator, h1]
  · intro h1 h2
    simp [varianceClampOperator, h1, h2]
  · intro h1 h2
    simp [varianceClampOperator, h1, h2]

/-- Claim C6, witness: with `minVariance = 0.0001` and `maxVariance = 0.05`,
the clamp sends `0.2` to `+infinity` and `0.00001` to `0.0001` (the two
examples of spec section 8.4). -/
theorem variance_clamp_spec_witness :
    varianceClampOperator (1/10000) (1/20) ((1/5 : ℚ) : WithTop ℚ) = ⊤ ∧
    varianceClampOperator (1/10000) (1/20) ((1/100000 : ℚ) : WithTop ℚ)
      = ((1/10000 : ℚ) : WithTop ℚ) := by
  constructor
  · exact (variance_clamp_spec (1/10000) (1/20) ((1/5 : ℚ) : WithTop ℚ)
      ⟨0, 0, 0, 0, 0, 0⟩ ⟨(0, 0), [], [], [], [], [], 0⟩).2.1
      (by rw [WithTop.coe_lt_coe]; norm_num)
      (by rw [WithTop.coe_lt_coe]; norm_num)
  · exact (variance_clamp_spec (1/10000) (1/20) ((1/100000 : ℚ) : WithTop ℚ)
      ⟨0, 0, 0, 0, 0, 0⟩ ⟨(0, 0), [], [], [], [], [], 0⟩).1
      (by rw [WithTop.coe_lt_coe]; norm_num)

/-- Claim C9: whenever the minimum bound is at most the maximum bound, the
variance clamp is idempotent, and `+infinity` is a fixed point of it: a
value once sent to `+infinity` stays `+infinity` under every further
clamp. -/
theorem variance_clamp_idempotent (minV maxV : ℚ) (h : minV ≤ maxV) :
    (∀ x : WithTop ℚ,
      varianceClampOperator minV maxV (varianceClampOperator minV maxV x)
        = varianceClampOperator minV maxV x) ∧
    varianceClampOperator minV maxV ⊤ = ⊤ := by
  have htop : varianceClampOperator minV maxV ⊤ = ⊤ := by
    simp [varianceClampOperator, WithTop.coe_lt_top]
  refine ⟨?_, htop⟩
  intro x
  by_cases h1 : x < (minV : WithTop ℚ)
  · have hmm : ¬ (minV : WithTop ℚ) < (minV : WithTop ℚ) := lt_irrefl _
    have hmx : ¬ (maxV : WithTop ℚ) < (minV : WithTop ℚ) :=
      not_lt.2 (WithTop.coe_le_coe.2 h)
    simp [varianceClampOperator, h1, hmm, hmx]
  · by_cases h2 : (maxV : WithTop ℚ) < x
    · have t1 : ¬ (⊤ : WithTop ℚ) < (minV : WithTop ℚ) := not_top_lt
      have t2 : (maxV : WithTop ℚ) < (⊤ : WithTop ℚ) := WithTop.coe_lt_top _
      simp [varianceClampOperator, h1, h2, t1, t2]
    · simp [varianceClampOperator, h1, h2]

/-- Claim C9, witness: with bounds `0 ≤ 1`, clamping twice equals clamping
once at the sample value `2`, and `+infinity` is a fixed point. -/
theorem variance_clamp_idempotent_witness :
    varianceClampOperator 0 1 (varianceClampOperator 0 1 ((2 : ℚ) : WithTop ℚ))
      = varianceClampOperator 0 1 ((2 : ℚ) : WithTop ℚ) ∧
    varianceClampOperator 0 1 ⊤ = ⊤ :=
  ⟨(variance_clamp_idempotent 0 1 (by norm_num)).1 ((2 : ℚ) : WithTop ℚ),
   (variance_clamp_idempotent 0 1 (by norm_num)).2⟩

/-- Claim C4: an exogenous update whose three delta matrices all match the
buffer size adds the deltas elementwise to the `variance`,
`horizontal_variance_x` and `horizontal_variance_y` layers, clamps them,
sets the timestamp to the given time and succeeds, leaving the elevation
and color layers and the buffer size unchanged; any dimension mismatch
fails and leaves the whole map (layers and timestamp) unchanged. -/
theorem update_spec (p : Params) (m : RawMap) (vU hxU hyU : List (List ℚ)) (t : ℕ) :
    update p m vU hxU hyU t =
      if matDims vU = m.size ∧ matDims hxU = m.size ∧ matDims hyU = m.size then
        (true,
          { size := m.size
            elevation := m.elevation
            variance := (addMat m.variance vU).map
              (List.map (varianceClampOperator p.minVariance p.maxVariance))
            hvx := (addMat m.hvx hxU).map
              (List.map (varianceClampOperator p.minHorizontalVariance p.maxHorizontalVariance))
            hvy := (addMat m.hvy hyU).map
              (List.map (varianceClampOperator p.minHorizontalVariance p.maxHorizontalVariance))
            color := m.color
            timestamp := t })
      else (false, m) := by
  unfold update clean
  split_ifs <;> rfl

/-- Claim C7: for a point whose target cell is valid and whose Mahalanobis
discrepancy is below the threshold, the integrator sets the cell elevation
to `(cellVariance·pointHeight + pointVariance·cellElevation) /
(cellVariance + pointVariance)`, the cell variance to
`(cellVariance·pointVariance) / (cellVariance + pointVariance)`, overwrites
the color with the point color and leaves both horizontal variances
unchanged. -/
theorem add_point_fuse_spec (p : Params) (z pv pcol e : ℚ) (c : Cell)
    (hvalid : c.elevation = some e)
    (hd : mahalanobisBelow p.mahalanobisDistanceThreshold z e c.variance) :
    addPoint p z pv pcol c =
      { elevation := some ((c.variance * z + pv * e) / (c.variance + pv))
        variance := (c.variance * pv) / (c.variance + pv)
        hvx := c.hvx
        hvy := c.hvy
        color := pcol } := by
  obtain ⟨el, v, hx, hy, col⟩ := c
  simp only at hvalid hd
  subst hvalid
  simp only [addPoint, if_pos hd]
  simp [mul_comm, add_comm]

/-- Claim C7, witness: spec test 8.2 shifted to a cell with horizontal
variances `5`, `6`: elevation `1`, variance `0.01`, incoming height `1.05`,
point variance `0.01`, threshold `3` gives discrepancy `0.5 < 3`, new
elevation `1.025`, new variance `0.005`, color overwritten with `9`,
horizontal variances untouched. -/
theorem add_point_fuse_spec_witness :
    addPoint ⟨0, 1, 0, 1, 3, 1/4⟩ (21/20) (1/100) 9 ⟨some 1, 1/100, 5, 6, 7⟩ =
      ⟨some (41/40), 1/200, 5, 6, 9⟩ := by
  have h := add_point_fuse_spec ⟨0, 1, 0, 1, 3, 1/4⟩ (21/20) (1/100) 9 1
    ⟨some 1, 1/100, 5, 6, 7⟩ rfl (by constructor <;> norm_num)
  rw [h]
  norm_num [Cell.mk.injEq]

/-- Claim C8: for a point whose target cell is valid and whose Mahalanobis
discrepancy is not below the threshold, the integrator leaves the cell
elevation unchanged, adds the multi-height noise increment to the cell
variance and resets both horizontal variances to the minimum horizontal
variance. -/
theorem add_point_outlier_spec (p : Params) (z pv pcol e : ℚ) (c : Cell)
    (hvalid : c.elevation = some e)
    (hd : ¬ mahalanobisBelow p.mahalanobisDistanceThreshold z e c.variance) :
    addPoint p z pv pcol c =
      { c with
        variance := c.variance + p.multiHeightNoise
        hvx := p.minHorizontalVariance
        hvy := p.minHorizontalVariance } := by
  obtain ⟨el, v, hx, hy, col⟩ := c
  simp only at hvalid hd
  subst hvalid
  simp only [addPoint, if_neg hd]

/-- Claim C8, witness: spec test 8.3 with `multiHeightNoise = 0.25` and
`minHorizontalVariance = 2`: elevation `1`, variance `0.01`, incoming
height `5`, threshold `3` gives discrepancy `40 ≥ 3`; the elevation stays
`1`, the variance becomes `0.26` and both horizontal variances are reset
to `2`. -/
theorem add_point_outlier_spec_witness :
    addPoint ⟨0, 1, 2, 5, 3, 1/4⟩ 5 (1/100) 9 ⟨some 1, 1/100, 5, 6, 7⟩ =
      ⟨some 1, 26/100, 2, 2, 7⟩ := by
  have h := add_point_outlier_spec ⟨0, 1, 2, 5, 3, 1/4⟩ 5 (1/100) 9 1
    ⟨some 1, 1/100, 5, 6, 7⟩ rfl (by norm_num [mahalanobisBelow])
  rw [h]
  norm_num [Cell.mk.injEq]

/-- Claim C10: in the outlier branch (valid target cell, discrepancy not
below the threshold) the integrator leaves the cell color and the cell
elevation unchanged: it writes only the variance and the two
horizontal-variance layers of the cell. -/
theorem add_point_outlier_frame (p : Params) (z pv pcol e : ℚ) (c : Cell)
    (hvalid : c.elevation = some e)
    (hd : ¬ mahalanobisBelow p.mahalanobisDistanceThreshold z e c.variance) :
    (addPoint p z pv pcol c).color = c.color ∧
    (addPoint p z pv pcol c).elevation = c.elevation := by
  obtain ⟨el, v, hx, hy, col⟩ := c
  simp only at hvalid hd
  subst hvalid
  simp [addPoint, if_neg hd]

/-- Claim C10, witness: at the concrete outlier instance (cell elevation
`2`, variance `0.04`, incoming height `8`, point color `11`, threshold
`3`) the updated cell keeps color `13` and elevation `2`. -/
theorem add_point_outlier_frame_witness :
    (addPoint ⟨0, 1, 2, 5, 3, 1/4⟩ 8 (1/100) 11 ⟨some 2, 4/100, 5, 6, 13⟩).color = 13 ∧
    (addPoint ⟨0, 1, 2, 5, 3, 1/4⟩ 8 (1/100) 11 ⟨some 2, 4/100, 5, 6, 13⟩).elevation
      = some 2 :=
  add_point_outlier_frame ⟨0, 1, 2, 5, 3, 1/4⟩ 8 (1/100) 11 2
    ⟨some 2, 4/100, 5, 6, 13⟩ rfl (by norm_num [mahalanobisBelow])

/-- Claim C5: when a fusion pass that proceeds (the request is not rejected
by the emptiness guard) starts with a fused timestamp different from the
snapshot timestamp, the fused map is first reset — the map the region loop
starts from has every cell invalid and timestamp `0` — and after the region
is processed the fused timestamp equals the snapshot timestamp. -/
theorem fuse_staleness_reset (cands : ℕ × ℕ → List Candidate) (f : FusedMap)
    (snap : RawSnapshot) (tl sz : ℕ × ℕ)
    (hts : f.timestamp ≠ snap.timestamp)
    (hsz : ¬ (sz.1 = 0 ∧ sz.2 = 0)) :
    (∀ row ∈ (resetFusedData f).cells, ∀ c ∈ row, c = none) ∧
    (resetFusedData f).timestamp = 0 ∧
    fuse cands f snap tl sz =
      (true,
        { (regionIndices tl sz).foldl (fuseCellStep cands snap) (resetFusedData f) with
          timestamp := snap.timestamp }) := by
  refine ⟨?_, rfl, ?_⟩
  · intro row hrow c hc
    simp only [resetFusedData, List.mem_map] at hrow
    obtain ⟨r, -, rfl⟩ := hrow
    simp only [List.mem_map] at hc
    obtain ⟨a, -, ha⟩ := hc
    exact ha.symm
  · simp only [fuse]
    rw [if_neg hsz, if_pos hts]

/-- Claim C5, witness: a one-cell fused map holding a valid cell at
timestamp `1` fused against a snapshot (one hole) at timestamp `2` over the
region `(0,0)`-`(1,1)`: the pass succeeds with the cell invalidated by the
staleness reset and the fused timestamp advanced to `2`. -/
theorem fuse_staleness_reset_witness :
    fuse (fun _ => []) ⟨[[some ⟨1, 1, 1⟩]], 1⟩ ⟨[[none]], 2⟩ (0, 0) (1, 1) =
      (true, ⟨[[none]], 2⟩) := by
  have h := (fuse_staleness_reset (fun _ => []) ⟨[[some ⟨1, 1, 1⟩]], 1⟩ ⟨[[none]], 2⟩
    (0, 0) (1, 1) (by decide) (by decide)).2.2
  rw [h]
  simp [regionIndices, fuseCellStep, resetFusedData, cellAt, List.range_succ]

/-- Claim C1 (evaluation at the failing input): the code computes the fused
variance of line 269 with `variances.square()`, so for the single gathered
candidate with weight `1`, elevation `3` and variance `2` the fused mean is
the weighted mean `3` as claimed, but the fused variance is
`(1·(2² + 3²))/1 − 3² = 4`, whereas the claimed weighted second moment
`Σ(w·(v + e²))/Σw − μ²` gives `(1·(2 + 3²))/1 − 3² = 2`: the two formulas
disagree on this input. -/
theorem fused_variance_squares_raw_variances :
    fusedMean [⟨1, 3, 2⟩] = 3 ∧
    fusedVariance [⟨1, 3, 2⟩] = 4 ∧
    fusedVarianceSpecFormula [⟨1, 3, 2⟩] = 2 ∧
    fusedVariance [⟨1, 3, 2⟩] ≠ fusedVarianceSpecFormula [⟨1, 3, 2⟩] := by
  norm_num [fusedVariance, fusedVarianceSpecFormula, fusedMean, weightsSum]

/-- Claim C2 (evaluation at the failing input): fusing a cell whose only
gathered candidate is itself (raw elevation `3`, raw variance `2`, raw
color `7`, footprint weight `1/2`) writes the raw elevation and the raw
color into the fused cell, but writes variance `4 = 2²` — the raw variance
squared, not the raw variance — because line 269 squares the candidate
variances. -/
theorem single_candidate_fusion_squares_variance :
    fuseCellStep (fun _ => [⟨1/2, 3, 2⟩]) ⟨[[some ⟨3, 2, 7⟩]], 5⟩ ⟨[[none]], 5⟩ (0, 0) =
      ⟨[[some ⟨3, 4, 7⟩]], 5⟩ ∧
    fusedVariance [⟨1/2, 3, 2⟩] ≠ (2 : ℚ) := by
  constructor
  · norm_num [fuseCellStep, cellAt, setCell, weightsSum, fusedMean, fusedVariance,
      FusedCell.mk.injEq]
  · norm_num [fusedVariance, fusedMean, weightsSum]

/-- Claim C3 (evaluation at the failing input): the emptiness guard of
line 179 is `size.any() == 0`, which fires only when both region dimensions
are zero; for the region of size `(0, 5)` — zero extent in the first
dimension, hence an empty region — the pass proceeds: it returns `true`,
performs the staleness reset (invalidating the stored cell) and sets the
fused timestamp to the snapshot timestamp `2`, instead of returning `false`
and leaving the fused map unchanged. -/
theorem fuse_empty_dimension_proceeds :
    fuse (fun _ => []) ⟨[[some ⟨1, 1, 1⟩]], 1⟩ ⟨[[none]], 2⟩ (0, 0) (0, 5) =
      (true, ⟨[[none]], 2⟩) ∧
    (⟨[[none]], 2⟩ : FusedMap) ≠ ⟨[[some ⟨1, 1, 1⟩]], 1⟩ := by
  constructor
  · simp [fuse, resetFusedData, regionIndices, fuseCellStep, cellAt]
  · simp

end ElevationMapping
